import Mathlib

set_option maxHeartbeats 1000000

/-!
Verification of the dynamic uniform-buffer layout packer and buffer lifecycle of
`source/blender/gpu/intern/gpu_uniformbuffer.cc`.

The packer part (`get_padded_gpu_type`, `inputs_cmp`,
`gpu_uniformbuffer_inputs_sort`, the packing loop of
`GPU_uniformbuffer_dynamic_create`) is embedded as pure functions on lists.
The lifecycle part (`GPU_uniformbuffer_create` / `_update` / `_bind`) is
embedded as state-passing functions that additionally return the list of GL
calls they issue, so that "how many uploads happened" is a statement about a
trace.  External GL state (`GPU_max_ubo_size`, `GPU_max_ubo_binds`,
`GPU_buf_alloc`) is a parameter record `GLEnv`.
-/

/--
The `eGPUType` enum constants that can reach the UBO packer
(`GPU_NONE`/`GPU_CLOSURE`/... are omitted: `gpu_uniformbuffer_inputs_sort`
rejects everything above `GPU_MAT4`, and `GPU_MAT3` is rejected explicitly).
The numeric value of each constant is also its number of float components,
and the source uses the two interchangeably (`gputype * sizeof(float)`).
-/
inductive eGPUType where
  | GPU_FLOAT
  | GPU_VEC2
  | GPU_VEC3
  | GPU_VEC4
  | GPU_MAT3
  | GPU_MAT4
deriving DecidableEq

/-- Numeric value of the enum constant, which is also the float count. -/
def eGPUType.components : eGPUType → Nat
  | .GPU_FLOAT => 1
  | .GPU_VEC2 => 2
  | .GPU_VEC3 => 3
  | .GPU_VEC4 => 4
  | .GPU_MAT3 => 9
  | .GPU_MAT4 => 16

/--
The part of `GPUInput` (gpu_node_graph.h) that the UBO code reads: its type
and its value array `input->vec` (a float array of which `type` entries are
meaningful).  Floats are modelled as opaque integers: the code only copies
them, never computes with them.
-/
structure GPUInput where
  type : eGPUType
  vec : List Int
deriving DecidableEq

/--
`inputs_cmp` (gpu_uniformbuffer.cc:102): returns 1 (here `true`) iff the
first item should be placed after the second, i.e. iff `a->type < b->type`.
-/
def inputs_cmp (a b : GPUInput) : Bool :=
  decide (a.type.components < b.type.components)

/-- Ordering established by `BLI_listbase_sort(inputs, inputs_cmp)`: `a` may
stay before `b` exactly when `inputs_cmp a b = 0`. -/
def inputLE (a b : GPUInput) : Prop := inputs_cmp a b = false

instance : DecidableRel inputLE := fun a b => by
  unfold inputLE; infer_instance

instance : IsTotal GPUInput inputLE :=
  ⟨by
    intro a b
    simp only [inputLE, inputs_cmp, decide_eq_false_iff_not, Nat.not_lt]
    omega⟩

instance : IsTrans GPUInput inputLE :=
  ⟨by
    intro a b c
    simp only [inputLE, inputs_cmp, decide_eq_false_iff_not, Nat.not_lt]
    omega⟩

/--
Modelled from the spec: the call `BLI_listbase_sort(inputs, inputs_cmp)`
(gpu_uniformbuffer.cc:121) — `BLI_listbase_sort` itself (BLI_listbase.h) is
not part of this excerpt, and the spec states it is a stable sort ("using a
stable sort (ties keep relative input order)").  A stable sort for a total
preorder is unique, so it is realized here by `List.insertionSort`, which
is stable and kernel-computable.
-/
def sortedInputs (l : List GPUInput) : List GPUInput := l.insertionSort inputLE

/--
`get_padded_gpu_type` (gpu_uniformbuffer.cc:86): unless a vec3 is followed
by a float it is treated as a vec4.  `next` is `link->next` (`none` at the
end of the list).
-/
def get_padded_gpu_type (input : GPUInput) (next : Option GPUInput) : eGPUType :=
  match next with
  | some n =>
    if input.type = eGPUType.GPU_VEC3 ∧ ¬ n.type = eGPUType.GPU_FLOAT then
      eGPUType.GPU_VEC4
    else input.type
  | none => input.type

/--
Removing the node `inputs_lookup[GPU_FLOAT]` points to.  After sorting the
floats form the trailing run of the list and the lookup always points to the
first remaining one, so `BLI_remlink(inputs, float_input)` together with
`inputs_lookup[GPU_FLOAT] = float_input->next` is: remove the first float.
-/
def extractFirstFloat : List GPUInput → Option (GPUInput × List GPUInput)
  | [] => none
  | x :: xs =>
    if x.type = eGPUType.GPU_FLOAT then some (x, xs)
    else
      match extractFirstFloat xs with
      | some (f, ys) => some (f, x :: ys)
      | none => none

/--
The float-migration `while` loop of `gpu_uniformbuffer_inputs_sort`
(gpu_uniformbuffer.cc:153-172), acting on the sublist that starts at
`inputs_lookup[GPU_VEC3]`.  Each iteration advances `link` by one node of
the original vec3 run, so the loop runs at most `length` times; that bound
is the structural `fuel` argument (the loop itself has no fuel).
-/
def migrateLoopFuel : Nat → List GPUInput → List GPUInput
  | 0, l => l
  | _ + 1, [] => []
  | fuel + 1, v :: rest =>
    if v.type = eGPUType.GPU_VEC3 then
      match rest with
      | [] => [v]
      | nxt :: _ =>
        if nxt.type = eGPUType.GPU_FLOAT then v :: rest
        else
          match extractFirstFloat rest with
          | some (f, rest') => v :: f :: migrateLoopFuel fuel rest'
          | none => v :: migrateLoopFuel fuel rest
    else v :: rest

/-- The float-migration loop with its (sufficient) fuel `l.length`. -/
def migrateLoop (l : List GPUInput) : List GPUInput := migrateLoopFuel l.length l

/--
`gpu_uniformbuffer_inputs_sort` (gpu_uniformbuffer.cc:114): stable sort by
`inputs_cmp`, then — when a vec3 exists — the float-migration loop starting
at the first vec3 (`inputs_lookup[GPU_VEC3]`).  When no vec3 exists
(`dropWhile` yields `[]`) the function returns after the sort.
-/
def gpu_uniformbuffer_inputs_sort (inputs : List GPUInput) : List GPUInput :=
  let s := sortedInputs inputs
  s.takeWhile (fun i => !(decide (i.type = eGPUType.GPU_VEC3)))
    ++ migrateLoop (s.dropWhile (fun i => !(decide (i.type = eGPUType.GPU_VEC3))))

/-- The padded effective widths (in floats) of the entries of a packed list,
each computed by `get_padded_gpu_type` of the entry and its successor. -/
def paddedWidths : List GPUInput → List Nat
  | [] => []
  | x :: rest => (get_padded_gpu_type x rest.head?).components :: paddedWidths rest

/-- Ceiling division `divide_ceil_u` (BLI_math_base.h) on unsigned ints. -/
def divide_ceil_u (a b : Nat) : Nat := (a + b - 1) / b

/--
The `buffer_size` computed by `GPU_uniformbuffer_dynamic_create`
(gpu_uniformbuffer.cc:191-199) for the already sorted-and-adjusted list
`s`: the sum of the padded widths in bytes, rounded up to the size of a
vec4 (16 bytes).
-/
def bufferSizeBytes (s : List GPUInput) : Nat :=
  divide_ceil_u ((paddedWidths s).sum * 4) 16 * 16

/-- The offset (in floats) at which entry `j` of the packed list `s` is
written: padded widths accumulated over the entries before it. -/
def offsetAt (s : List GPUInput) (j : Nat) : Nat := ((paddedWidths s).take j).sum

/-- One `memcpy(offset, input->vec, n * sizeof(float))`: overwrite
`vals.length` cells of `buf` starting at float-offset `ofs`. -/
def writeVals (buf : List (Option Int)) (ofs : Nat) (vals : List Int) : List (Option Int) :=
  buf.take ofs ++ vals.map some ++ buf.drop (ofs + vals.length)

/--
The population loop of `GPU_uniformbuffer_dynamic_create`
(gpu_uniformbuffer.cc:203-208): write `input->type` floats of each entry at
the running offset, then advance the offset by the padded width.  A buffer
cell is `none` while unwritten (`MEM_mallocN` memory is uninitialized).
-/
def packLoop : List GPUInput → Nat → List (Option Int) → List (Option Int)
  | [], _, buf => buf
  | x :: rest, ofs, buf =>
    packLoop rest (ofs + (get_padded_gpu_type x rest.head?).components)
      (writeVals buf ofs (x.vec.take x.type.components))

/-- The byte block `data` built by `GPU_uniformbuffer_dynamic_create`:
sort-and-adjust, allocate `buffer_size` bytes, populate.  (One cell per
float, so `buffer_size / 4` cells.) -/
def pack (inputs : List GPUInput) : List (Option Int) :=
  let s := gpu_uniformbuffer_inputs_sort inputs
  packLoop s 0 (List.replicate (bufferSizeBytes s / 4) none)

/-- External GL capabilities and behavior: `GPU_max_ubo_size()`,
`GPU_max_ubo_binds()`, and the handle `GPU_buf_alloc()` hands out. -/
structure GLEnv where
  maxUboSize : Nat
  maxUboBinds : Int
  allocHandle : Nat
deriving DecidableEq

/-- The GL/GPU calls the lifecycle functions issue, recorded as a trace. -/
inductive GLCall where
  | bufAlloc (handle : Nat)
  | bindBuffer (handle : Nat)
  | bufferData (handle : Nat) (size : Nat)
  | bufferSubData (handle : Nat) (size : Nat) (payload : List (Option Int))
  | bindBufferBase (slot : Int) (handle : Nat)
deriving DecidableEq

/-- The `GPUUniformBuffer` struct (gpu_uniformbuffer.cc:38): size in bytes,
GL handle (`0` = not yet allocated), current binding point, and the owned
pending data block (`none` = `NULL`). -/
structure GPUUniformBuffer where
  size : Nat
  bindcode : Nat
  bindpoint : Int
  data : Option (List (Option Int))
deriving DecidableEq

/--
`gpu_uniformbuffer_init` (gpu_uniformbuffer.cc:217): allocate the GL
buffer; on alloc failure print and return, else bind and allocate storage.
(`BLI_assert` is a no-op outside debug builds and is not modelled.)
-/
def gpu_uniformbuffer_init (env : GLEnv) (ubo : GPUUniformBuffer) :
    GPUUniformBuffer × List GLCall :=
  let code := env.allocHandle
  if code = 0 then
    ({ ubo with bindcode := 0 }, [.bufAlloc 0])
  else
    ({ ubo with bindcode := code },
      [.bufAlloc code, .bindBuffer code, .bufferData code ubo.size])

/--
`GPU_uniformbuffer_update` (gpu_uniformbuffer.cc:232): lazily init, then
upload `d` (a full `glBufferSubData` of `ubo->size` bytes).  Note that it
does not touch `ubo->data`.
-/
def GPU_uniformbuffer_update (env : GLEnv) (ubo : GPUUniformBuffer)
    (d : List (Option Int)) : GPUUniformBuffer × List GLCall :=
  let s := if ubo.bindcode = 0 then gpu_uniformbuffer_init env ubo else (ubo, [])
  (s.1, s.2 ++ [.bindBuffer s.1.bindcode, .bufferSubData s.1.bindcode s.1.size d, .bindBuffer 0])

/--
`GPU_uniformbuffer_bind` (gpu_uniformbuffer.cc:243): slot past
`GPU_max_ubo_binds()` → log and return; else lazily init, upload-and-free
pending data if present, attach to the slot and record the binding point.
-/
def GPU_uniformbuffer_bind (env : GLEnv) (ubo : GPUUniformBuffer) (number : Int) :
    GPUUniformBuffer × List GLCall :=
  if env.maxUboBinds ≤ number then (ubo, [])
  else
    let s1 := if ubo.bindcode = 0 then gpu_uniformbuffer_init env ubo else (ubo, [])
    let s2 :=
      match s1.1.data with
      | some d =>
        let u := GPU_uniformbuffer_update env s1.1 d
        ({ u.1 with data := none }, u.2)
      | none => (s1.1, [])
    ({ s2.1 with bindpoint := number }, s1.2 ++ s2.2 ++ [.bindBufferBase number s2.1.bindcode])

/--
`GPU_uniformbuffer_create` (gpu_uniformbuffer.cc:49): reject sizes above
`GPU_max_ubo_size()`, writing a message into `err_out` when the caller
supplied one (`hasErrOut`); otherwise build the struct and, when `d` is
supplied, upload it immediately.  (The debug-only `BLI_assert(size % 16 ==
0)` is a no-op outside debug builds and is not modelled.)
-/
def GPU_uniformbuffer_create (env : GLEnv) (size : Nat) (d : Option (List (Option Int)))
    (hasErrOut : Bool) : Option GPUUniformBuffer × Option String × List GLCall :=
  if env.maxUboSize < size then
    (none, if hasErrOut then some "GPUUniformBuffer: UBO too big" else none, [])
  else
    let ubo : GPUUniformBuffer := { size := size, bindcode := 0, bindpoint := -1, data := none }
    match d with
    | some payload =>
      let u := GPU_uniformbuffer_update env ubo payload
      (some u.1, none, u.2)
    | none => (some ubo, none, [])

/--
`GPU_uniformbuffer_dynamic_create` (gpu_uniformbuffer.cc:182): `NULL` for
an empty input list; else sort-and-adjust, pack, create with deferred data
and retain the block in `ubo->data`.  When `GPU_uniformbuffer_create`
returns `NULL` (size above the platform maximum) the C code dereferences
that null pointer at `ubo->data = data`; that crash is modelled as `none`.
-/
def GPU_uniformbuffer_dynamic_create (env : GLEnv) (inputs : List GPUInput)
    (hasErrOut : Bool) : Option GPUUniformBuffer × Option String × List GLCall :=
  if inputs = [] then (none, none, [])
  else
    let s := gpu_uniformbuffer_inputs_sort inputs
    match GPU_uniformbuffer_create env (bufferSizeBytes s) none hasErrOut with
    | (some ubo, e, t) => (some { ubo with data := some (pack inputs) }, e, t)
    | (none, e, t) => (none, e, t)

/-- Is a GL call an upload of buffer contents (`glBufferSubData`)? -/
def isUpload : GLCall → Bool
  | .bufferSubData _ _ _ => true
  | _ => false

/-- Number of uploads in a trace. -/
def countUploads (t : List GLCall) : Nat := (t.filter isUpload).length

/-- A sequence of `GPU_uniformbuffer_bind` calls, with the combined trace. -/
def bindSeq (env : GLEnv) : GPUUniformBuffer → List Int → GPUUniformBuffer × List GLCall
  | ubo, [] => (ubo, [])
  | ubo, n :: ns =>
    let s := GPU_uniformbuffer_bind env ubo n
    let rest := bindSeq env s.1 ns
    (rest.1, s.2 ++ rest.2)

/-- Entry is a vec3. -/
def isV3 (i : GPUInput) : Bool := decide (i.type = eGPUType.GPU_VEC3)

/-- Entry is a float. -/
def isF (i : GPUInput) : Bool := decide (i.type = eGPUType.GPU_FLOAT)

/-- The adjacent (vec3, float) pairs of a packed list: each is a vec3
immediately followed by a float. -/
def vec3FloatPairs (s : List GPUInput) : List (GPUInput × GPUInput) :=
  (s.zip s.tail).filter (fun p => isV3 p.1 && isF p.2)

/-- Closed form of the float-migration loop on a (vec3 run ++ float run)
list: floats are interleaved after the vec3s while both runs last, and the
loop stops at the last vec3. -/
def interleaveVF : List GPUInput → List GPUInput → List GPUInput
  | [], fs => fs
  | [v], fs => v :: fs
  | v :: v2 :: vs, [] => v :: interleaveVF (v2 :: vs) []
  | v :: v2 :: vs, f :: fs => v :: f :: interleaveVF (v2 :: vs) fs

/--
Claim C3 as stated, formalized: with N Vec3s and M Floats (M < N), exactly
the first M Vec3s in sorted order are followed by a Float, each Float is
consumed once, and all remaining N − M Vec3s have padded effective width
4.
-/
abbrev C3_claim (l : List GPUInput) : Prop :=
  ((vec3FloatPairs (gpu_uniformbuffer_inputs_sort l)).map Prod.fst
      = ((sortedInputs l).filter isV3).take (l.filter isF).length) ∧
  ((vec3FloatPairs (gpu_uniformbuffer_inputs_sort l)).map Prod.snd = l.filter isF) ∧
  paddedWidths (gpu_uniformbuffer_inputs_sort l)
    = (List.replicate (l.filter isF).length ([3, 1] : List Nat)).flatten
      ++ List.replicate ((l.filter isV3).length - (l.filter isF).length) 4

/--
Conclusion of the amended claim C3: the Vec3s keep their sorted order, the
first M of them are each followed by one distinct Float, and the remaining
Vec3s have padded width 4 except the final trailing Vec3, whose width
stays 3.
-/
abbrev C3_conclusion (l : List GPUInput) : Prop :=
  ((gpu_uniformbuffer_inputs_sort l).filter isV3 = (sortedInputs l).filter isV3) ∧
  ((vec3FloatPairs (gpu_uniformbuffer_inputs_sort l)).map Prod.fst
      = ((sortedInputs l).filter isV3).take (l.filter isF).length) ∧
  ((vec3FloatPairs (gpu_uniformbuffer_inputs_sort l)).map Prod.snd = l.filter isF) ∧
  paddedWidths (gpu_uniformbuffer_inputs_sort l)
    = (List.replicate (l.filter isF).length ([3, 1] : List Nat)).flatten
      ++ List.replicate ((l.filter isV3).length - (l.filter isF).length - 1) 4 ++ [3]

/--
Claim C4 as stated, formalized: packing two Vec3s pads both to effective
width 4 and yields a 32-byte block.
-/
abbrev C4_claim (a b : GPUInput) : Prop :=
  paddedWidths (gpu_uniformbuffer_inputs_sort [a, b]) = [4, 4] ∧
  bufferSizeBytes (gpu_uniformbuffer_inputs_sort [a, b]) = 32

/--
Claim C6 as stated, formalized: dynamic creation yields no buffer exactly
for the empty input list, and any returned buffer holds pending data with
no GL call issued at construction.
-/
abbrev C6_claim (env : GLEnv) (l : List GPUInput) : Prop :=
  ((GPU_uniformbuffer_dynamic_create env l true).1 = none ↔ l = []) ∧
  (GPU_uniformbuffer_dynamic_create env l true).1.all
      (fun ubo => ubo.data.isSome
        && decide ((GPU_uniformbuffer_dynamic_create env l true).2.2 = [])) = true

/--
Claim C9 as stated, formalized at one update call: any operation that
uploads the buffer contents clears the pending data, so an update (whose
trace always contains an upload) must leave `data = none`.
-/
abbrev C9_claim (env : GLEnv) (ubo : GPUUniformBuffer) (d : List (Option Int)) : Prop :=
  0 < countUploads (GPU_uniformbuffer_update env ubo d).2 →
  (GPU_uniformbuffer_update env ubo d).1.data = none

/-- Unfolding of the sort ordering: `inputLE a b` holds iff `b`'s component
count does not exceed `a`'s. -/
theorem inputLE_iff {a b : GPUInput} :
    inputLE a b ↔ b.type.components ≤ a.type.components := by
  simp [inputLE, inputs_cmp, decide_eq_false_iff_not, Nat.not_lt]

/-- The sort stage produces a list that is non-increasing in component count. -/
theorem sortedInputs_sorted (l : List GPUInput) :
    (sortedInputs l).Pairwise (fun a b => b.type.components ≤ a.type.components) :=
  (List.sorted_insertionSort inputLE l).imp (fun h => inputLE_iff.mp h)

/-- The sort stage permutes its input. -/
theorem sortedInputs_perm (l : List GPUInput) : List.Perm (sortedInputs l) l :=
  List.perm_insertionSort inputLE l

/-- Stability of the sort stage: the sublist of entries satisfying a
predicate that forces mutually tied keys is preserved verbatim. -/
theorem sortedInputs_filter (l : List GPUInput) (p : GPUInput → Bool)
    (hp : ∀ a b, p a = true → p b = true → inputLE a b) :
    (sortedInputs l).filter p = l.filter p := by
  have h1 : (l.filter p).Pairwise inputLE :=
    List.pairwise_of_forall_mem_list
      (fun a ha b hb => hp a b (List.of_mem_filter ha) (List.of_mem_filter hb))
  have h3 : List.Sublist (l.filter p) (sortedInputs l) :=
    List.sublist_insertionSort h1 (List.filter_sublist l)
  have h4 : List.Sublist (l.filter p) ((sortedInputs l).filter p) := by
    have h := h3.filter p
    rwa [List.filter_eq_self.mpr (fun a ha => List.of_mem_filter ha)] at h
  have h5 : ((sortedInputs l).filter p).length = (l.filter p).length :=
    ((sortedInputs_perm l).filter p).length_eq
  exact (h4.eq_of_length h5.symm).symm

/-- A list sorted by non-increasing width whose entries are all vec3 or
float is its vec3 run followed by its float run. -/
theorem grouped_v3f (l : List GPUInput)
    (hs : l.Pairwise (fun a b => b.type.components ≤ a.type.components))
    (hall : ∀ x ∈ l, x.type = eGPUType.GPU_VEC3 ∨ x.type = eGPUType.GPU_FLOAT) :
    l = l.filter isV3 ++ l.filter isF := by
  induction l with
  | nil => simp
  | cons x t ih =>
    rcases hall x (by simp) with hx | hx
    · have ht := ih hs.of_cons (fun y hy => hall y (by simp [hy]))
      have e1 : List.filter isV3 (x :: t) = x :: t.filter isV3 :=
        List.filter_cons_of_pos (by simp [isV3, hx])
      have e2 : List.filter isF (x :: t) = t.filter isF :=
        List.filter_cons_of_neg (by simp [isF, hx])
      rw [e1, e2, List.cons_append]
      exact congrArg (x :: ·) ht
    · have htf : ∀ y ∈ t, y.type = eGPUType.GPU_FLOAT := by
        intro y hy
        have hle := (List.pairwise_cons.mp hs).1 y hy
        rcases hall y (by simp [hy]) with h3 | hf
        · rw [hx, h3] at hle; simp [eGPUType.components] at hle
        · exact hf
      have h1 : t.filter isV3 = [] :=
        List.filter_eq_nil_iff.mpr (fun y hy => by simp [isV3, htf y hy])
      have h2 : t.filter isF = t :=
        List.filter_eq_self.mpr (fun y hy => by simp [isF, htf y hy])
      have e1 : List.filter isV3 (x :: t) = t.filter isV3 :=
        List.filter_cons_of_neg (by simp [isV3, hx])
      have e2 : List.filter isF (x :: t) = x :: t.filter isF :=
        List.filter_cons_of_pos (by simp [isF, hx])
      rw [e1, e2, h1, h2, List.nil_append]

/-- Sorting a list of vec3s and floats yields the vec3s (in input order)
followed by the floats (in input order). -/
theorem sortedInputs_v3f (l : List GPUInput)
    (hall : ∀ x ∈ l, x.type = eGPUType.GPU_VEC3 ∨ x.type = eGPUType.GPU_FLOAT) :
    sortedInputs l = l.filter isV3 ++ l.filter isF := by
  have hmem : ∀ x ∈ sortedInputs l, x.type = eGPUType.GPU_VEC3 ∨ x.type = eGPUType.GPU_FLOAT :=
    fun x hx => hall x ((sortedInputs_perm l).mem_iff.mp hx)
  have h := grouped_v3f (sortedInputs l) (sortedInputs_sorted l) hmem
  have hv : (sortedInputs l).filter isV3 = l.filter isV3 := by
    refine sortedInputs_filter l isV3 (fun a b ha hb => ?_)
    simp only [isV3, decide_eq_true_eq] at ha hb
    rw [inputLE_iff, ha, hb]
  have hf : (sortedInputs l).filter isF = l.filter isF := by
    refine sortedInputs_filter l isF (fun a b ha hb => ?_)
    simp only [isF, decide_eq_true_eq] at ha hb
    rw [inputLE_iff, ha, hb]
  rw [h, hv, hf]

/-- Extraction finds nothing in a float-free list. -/
theorem extractFirstFloat_none (l : List GPUInput)
    (h : ∀ x ∈ l, ¬ x.type = eGPUType.GPU_FLOAT) : extractFirstFloat l = none := by
  induction l with
  | nil => rfl
  | cons x t ih =>
    rw [extractFirstFloat, if_neg (h x (by simp))]
    rw [ih (fun y hy => h y (by simp [hy]))]

/-- Extraction removes exactly the first float of the list. -/
theorem extractFirstFloat_append (xs : List GPUInput) (f : GPUInput) (zs : List GPUInput)
    (hxs : ∀ x ∈ xs, ¬ x.type = eGPUType.GPU_FLOAT) (hf : f.type = eGPUType.GPU_FLOAT) :
    extractFirstFloat (xs ++ f :: zs) = some (f, xs ++ zs) := by
  induction xs with
  | nil => simp [extractFirstFloat, hf]
  | cons x t ih =>
    rw [List.cons_append, extractFirstFloat, if_neg (hxs x (by simp))]
    rw [ih (fun y hy => hxs y (by simp [hy]))]
    rfl

/-- Migration-loop equation: empty list. -/
theorem migrateLoopFuel_nil (fuel : Nat) : migrateLoopFuel fuel [] = [] := by
  cases fuel <;> rfl

/-- Migration-loop equation: loop guard fails on a non-vec3 link. -/
theorem migrateLoopFuel_nonv3 (fuel : Nat) (v : GPUInput) (rest : List GPUInput)
    (hv : ¬ v.type = eGPUType.GPU_VEC3) :
    migrateLoopFuel (fuel + 1) (v :: rest) = v :: rest := by
  simp only [migrateLoopFuel, if_neg hv]

/-- Migration-loop equation: break when the vec3 is the last link. -/
theorem migrateLoopFuel_last (fuel : Nat) (v : GPUInput) :
    migrateLoopFuel (fuel + 1) [v] = [v] := by
  simp only [migrateLoopFuel]
  split <;> rfl

/-- Migration-loop equation: break when the vec3 is already followed by a
float. -/
theorem migrateLoopFuel_break (fuel : Nat) (v nxt : GPUInput) (rest2 : List GPUInput)
    (hv : v.type = eGPUType.GPU_VEC3) (hn : nxt.type = eGPUType.GPU_FLOAT) :
    migrateLoopFuel (fuel + 1) (v :: nxt :: rest2) = v :: nxt :: rest2 := by
  simp only [migrateLoopFuel, if_pos hv, if_pos hn]

/-- Migration-loop equation: move the first remaining float (if any) next
to the current vec3 and advance. -/
theorem migrateLoopFuel_step (fuel : Nat) (v nxt : GPUInput) (rest2 : List GPUInput)
    (hv : v.type = eGPUType.GPU_VEC3) (hn : ¬ nxt.type = eGPUType.GPU_FLOAT) :
    migrateLoopFuel (fuel + 1) (v :: nxt :: rest2) =
      match extractFirstFloat (nxt :: rest2) with
      | some (f, rest') => v :: f :: migrateLoopFuel fuel rest'
      | none => v :: migrateLoopFuel fuel (nxt :: rest2) := by
  simp only [migrateLoopFuel, if_pos hv, if_neg hn]

/-- Closed form of the migration loop on a vec3 run followed by a float
run: the two runs are interleaved while both last, and the loop stops at
the last vec3. -/
theorem migrateLoopFuel_v3f (vs : List GPUInput) : ∀ (fuel : Nat) (fs : List GPUInput),
    (∀ v ∈ vs, v.type = eGPUType.GPU_VEC3) → (∀ f ∈ fs, f.type = eGPUType.GPU_FLOAT) →
    vs.length + fs.length ≤ fuel →
    migrateLoopFuel fuel (vs ++ fs) = interleaveVF vs fs := by
  induction vs with
  | nil =>
    intro fuel fs _ hfs hfuel
    match fs with
    | [] => rw [List.append_nil, migrateLoopFuel_nil]; rfl
    | f :: fs2 =>
      cases fuel with
      | zero => simp at hfuel
      | succ fuel =>
        rw [List.nil_append,
          migrateLoopFuel_nonv3 fuel f fs2 (by simp [hfs f (by simp)])]
        rfl
  | cons v vs' ih =>
    intro fuel fs hvs hfs hfuel
    have hv : v.type = eGPUType.GPU_VEC3 := hvs v (by simp)
    cases fuel with
    | zero => simp at hfuel
    | succ fuel =>
      match vs', fs with
      | [], [] =>
        rw [List.append_nil, migrateLoopFuel_last]; rfl
      | [], f :: fs2 =>
        rw [List.cons_append, List.nil_append]
        rw [migrateLoopFuel_break fuel v f fs2 hv (hfs f (by simp))]
        rfl
      | v2 :: vs2, [] =>
        have hnx : ¬ v2.type = eGPUType.GPU_FLOAT := by
          simp [hvs v2 (by simp)]
        rw [List.append_nil]
        rw [migrateLoopFuel_step fuel v v2 vs2 hv hnx]
        rw [extractFirstFloat_none _ (fun y hy => by simp [hvs y (by simp [hy])])]
        have hrec := ih fuel [] (fun y hy => hvs y (by simp [hy])) (by simp)
          (by simp at hfuel ⊢; omega)
        rw [List.append_nil] at hrec
        show v :: migrateLoopFuel fuel (v2 :: vs2) = interleaveVF (v :: v2 :: vs2) []
        rw [hrec]
        rfl
      | v2 :: vs2, f :: fs2 =>
        have hnx : ¬ v2.type = eGPUType.GPU_FLOAT := by
          simp [hvs v2 (by simp)]
        rw [List.cons_append, List.cons_append]
        rw [migrateLoopFuel_step fuel v v2 (vs2 ++ f :: fs2) hv hnx]
        rw [show (v2 :: (vs2 ++ f :: fs2) : List GPUInput) = (v2 :: vs2) ++ f :: fs2 from rfl]
        rw [extractFirstFloat_append (v2 :: vs2) f fs2
          (fun y hy => by simp [hvs y (by simp [hy])]) (hfs f (by simp))]
        have hrec := ih fuel fs2 (fun y hy => hvs y (by simp [hy]))
          (fun y hy => hfs y (by simp [hy])) (by simp at hfuel ⊢; omega)
        show v :: f :: migrateLoopFuel fuel ((v2 :: vs2) ++ fs2) =
          interleaveVF (v :: v2 :: vs2) (f :: fs2)
        rw [hrec]
        rfl

/-- Closed form of `migrateLoop` on a vec3 run followed by a float run. -/
theorem migrateLoop_v3f (vs fs : List GPUInput)
    (hvs : ∀ v ∈ vs, v.type = eGPUType.GPU_VEC3)
    (hfs : ∀ f ∈ fs, f.type = eGPUType.GPU_FLOAT) :
    migrateLoop (vs ++ fs) = interleaveVF vs fs := by
  rw [migrateLoop]
  exact migrateLoopFuel_v3f vs (vs ++ fs).length fs hvs hfs (by simp)

/-- Closed form of `gpu_uniformbuffer_inputs_sort` on a list of vec3s and
floats (at least one vec3): its vec3s interleaved with its floats. -/
theorem inputs_sort_v3f (l : List GPUInput)
    (hall : ∀ x ∈ l, x.type = eGPUType.GPU_VEC3 ∨ x.type = eGPUType.GPU_FLOAT)
    (hN : l.filter isV3 ≠ []) :
    gpu_uniformbuffer_inputs_sort l = interleaveVF (l.filter isV3) (l.filter isF) := by
  have hsplit := sortedInputs_v3f l hall
  obtain ⟨v, vs', hvs'⟩ := List.exists_cons_of_ne_nil hN
  have hvmem : ∀ x ∈ l.filter isV3, x.type = eGPUType.GPU_VEC3 := by
    intro x hx
    have := List.of_mem_filter hx
    simpa [isV3] using this
  have hfmem : ∀ x ∈ l.filter isF, x.type = eGPUType.GPU_FLOAT := by
    intro x hx
    have := List.of_mem_filter hx
    simpa [isF] using this
  rw [gpu_uniformbuffer_inputs_sort, hsplit]
  have hvhead : (!(decide (v.type = eGPUType.GPU_VEC3))) = false := by
    simp [hvmem v (by rw [hvs']; simp)]
  rw [hvs', List.cons_append, List.takeWhile_cons, hvhead]
  rw [List.dropWhile_cons, hvhead]
  simp only [Bool.false_eq_true, if_false, List.nil_append]
  rw [← List.cons_append, ← hvs']
  exact migrateLoop_v3f _ _ hvmem hfmem

/-- The interleaving of a non-empty vec3 run starts with the first vec3. -/
theorem interleaveVF_cons (v : GPUInput) (vs fs : List GPUInput) :
    ∃ t, interleaveVF (v :: vs) fs = v :: t := by
  cases vs <;> cases fs <;> exact ⟨_, rfl⟩

/-- Padded widths of an interleaved (vec3, float) layout with fewer floats
than vec3s: M pairs of widths (3, 1), then width 4 for each paired-less
vec3 except the final one, which keeps width 3. -/
theorem paddedWidths_interleave (vs : List GPUInput) : ∀ fs : List GPUInput,
    (∀ v ∈ vs, v.type = eGPUType.GPU_VEC3) → (∀ f ∈ fs, f.type = eGPUType.GPU_FLOAT) →
    fs.length < vs.length →
    paddedWidths (interleaveVF vs fs) =
      (List.replicate fs.length ([3, 1] : List Nat)).flatten
        ++ List.replicate (vs.length - fs.length - 1) 4 ++ [3] := by
  induction vs with
  | nil => intro fs _ _ h; simp at h
  | cons v vs' ih =>
    intro fs hvs hfs hlen
    have hv : v.type = eGPUType.GPU_VEC3 := hvs v (by simp)
    match vs', fs with
    | [], [] =>
      simp [interleaveVF, paddedWidths, get_padded_gpu_type, hv, eGPUType.components]
    | [], f :: fs2 => exact absurd hlen (by simp)
    | v2 :: vs2, [] =>
      obtain ⟨t, ht⟩ := interleaveVF_cons v2 vs2 []
      rw [show interleaveVF (v :: v2 :: vs2) [] = v :: interleaveVF (v2 :: vs2) [] from rfl,
        ht]
      rw [show paddedWidths (v :: v2 :: t)
          = (get_padded_gpu_type v (some v2)).components :: paddedWidths (v2 :: t) from rfl]
      rw [← ht,
        ih [] (fun y hy => hvs y (by simp [hy])) (by simp) (by simp)]
      have hw : (get_padded_gpu_type v (some v2)).components = 4 := by
        rw [get_padded_gpu_type, if_pos ⟨hv, by simp [hvs v2 (by simp)]⟩]
        rfl
      rw [hw]
      simp [List.replicate_succ]
    | v2 :: vs2, f :: fs2 =>
      have hlen2 : fs2.length < (v2 :: vs2).length := by simp at hlen ⊢; omega
      obtain ⟨t, ht⟩ := interleaveVF_cons v2 vs2 fs2
      rw [show interleaveVF (v :: v2 :: vs2) (f :: fs2)
          = v :: f :: interleaveVF (v2 :: vs2) fs2 from rfl, ht]
      rw [show paddedWidths (v :: f :: v2 :: t)
          = (get_padded_gpu_type v (some f)).components
            :: (get_padded_gpu_type f (some v2)).components :: paddedWidths (v2 :: t) from rfl]
      rw [← ht,
        ih fs2 (fun y hy => hvs y (by simp [hy])) (fun y hy => hfs y (by simp [hy])) hlen2]
      have hw1 : (get_padded_gpu_type v (some f)).components = 3 := by
        rw [get_padded_gpu_type, if_neg (by simp [hfs f (by simp)]), hv]; rfl
      have hw2 : (get_padded_gpu_type f (some v2)).components = 1 := by
        rw [get_padded_gpu_type, if_neg (by simp [hfs f (by simp)]), hfs f (by simp)]; rfl
      rw [hw1, hw2]
      simp [List.replicate_succ]

/-- Unfolding of `vec3FloatPairs` over the first adjacent pair. -/
theorem vec3FloatPairs_cons (x y : GPUInput) (t : List GPUInput) :
    vec3FloatPairs (x :: y :: t) =
      (if (isV3 x && isF y) = true then [(x, y)] else []) ++ vec3FloatPairs (y :: t) := by
  rw [vec3FloatPairs, vec3FloatPairs]
  rw [show (x :: y :: t).tail = y :: t from rfl, show (y :: t).tail = t from rfl]
  rw [List.zip_cons_cons, List.filter_cons]
  split <;> simp

/-- With fewer floats than vec3s, the vec3-followed-by-float pairs of the
interleaved layout are exactly the first M vec3s zipped with the floats. -/
theorem vec3FloatPairs_interleave (vs : List GPUInput) : ∀ fs : List GPUInput,
    (∀ v ∈ vs, v.type = eGPUType.GPU_VEC3) → (∀ f ∈ fs, f.type = eGPUType.GPU_FLOAT) →
    fs.length < vs.length →
    vec3FloatPairs (interleaveVF vs fs) = (vs.take fs.length).zip fs := by
  induction vs with
  | nil => intro fs _ _ h; simp at h
  | cons v vs' ih =>
    intro fs hvs hfs hlen
    have hv : v.type = eGPUType.GPU_VEC3 := hvs v (by simp)
    match vs', fs with
    | [], [] => rfl
    | [], f :: fs2 => exact absurd hlen (by simp)
    | v2 :: vs2, [] =>
      obtain ⟨t, ht⟩ := interleaveVF_cons v2 vs2 []
      rw [show interleaveVF (v :: v2 :: vs2) [] = v :: interleaveVF (v2 :: vs2) [] from rfl,
        ht, vec3FloatPairs_cons, ← ht,
        ih [] (fun y hy => hvs y (by simp [hy])) (by simp) (by simp)]
      have : (isV3 v && isF v2) = false := by
        simp [isV3, isF, hvs v2 (by simp)]
      rw [this]
      simp
    | v2 :: vs2, f :: fs2 =>
      have hlen2 : fs2.length < (v2 :: vs2).length := by simp at hlen ⊢; omega
      obtain ⟨t, ht⟩ := interleaveVF_cons v2 vs2 fs2
      rw [show interleaveVF (v :: v2 :: vs2) (f :: fs2)
          = v :: f :: interleaveVF (v2 :: vs2) fs2 from rfl, ht,
        vec3FloatPairs_cons]
      rw [show ((f :: v2 :: t : List GPUInput)) = f :: v2 :: t from rfl]
      rw [vec3FloatPairs_cons, ← ht,
        ih fs2 (fun y hy => hvs y (by simp [hy])) (fun y hy => hfs y (by simp [hy])) hlen2]
      have h1 : (isV3 v && isF f) = true := by
        simp [isV3, isF, hv, hfs f (by simp)]
      have h2 : (isV3 f && isF v2) = false := by
        simp [isV3, isF, hfs f (by simp), hvs v2 (by simp)]
      rw [h1, h2]
      simp [List.take_succ_cons]

/-- Interleaving does not reorder the vec3 run. -/
theorem interleave_filter_v3 (vs : List GPUInput) : ∀ fs : List GPUInput,
    (∀ v ∈ vs, v.type = eGPUType.GPU_VEC3) → (∀ f ∈ fs, f.type = eGPUType.GPU_FLOAT) →
    (interleaveVF vs fs).filter isV3 = vs := by
  induction vs with
  | nil =>
    intro fs _ hfs
    rw [show interleaveVF [] fs = fs from rfl]
    exact List.filter_eq_nil_iff.mpr (fun y hy => by simp [isV3, hfs y hy])
  | cons v vs' ih =>
    intro fs hvs hfs
    have hv : v.type = eGPUType.GPU_VEC3 := hvs v (by simp)
    match vs', fs with
    | [], [] => simp [interleaveVF, isV3, hv]
    | [], f :: fs2 =>
      rw [show interleaveVF [v] (f :: fs2) = v :: f :: fs2 from rfl]
      rw [List.filter_cons_of_pos (by simp [isV3, hv])]
      rw [List.filter_eq_nil_iff.mpr (fun y hy => by simp [isV3, hfs y hy])]
    | v2 :: vs2, [] =>
      rw [show interleaveVF (v :: v2 :: vs2) [] = v :: interleaveVF (v2 :: vs2) [] from rfl]
      rw [List.filter_cons_of_pos (by simp [isV3, hv])]
      rw [ih [] (fun y hy => hvs y (by simp [hy])) (by simp)]
    | v2 :: vs2, f :: fs2 =>
      rw [show interleaveVF (v :: v2 :: vs2) (f :: fs2)
          = v :: f :: interleaveVF (v2 :: vs2) fs2 from rfl]
      rw [List.filter_cons_of_pos (by simp [isV3, hv]),
        List.filter_cons_of_neg (by simp [isV3, hfs f (by simp)])]
      rw [ih fs2 (fun y hy => hvs y (by simp [hy])) (fun y hy => hfs y (by simp [hy]))]

/--
C5: the packer's sort stage orders every input set by descending component
width — Mat4 first, then Vec4, Vec3, Vec2, Float last (the output is
pairwise non-increasing in component count) — and it is stable: for each
kind, the inputs of that kind appear in their original relative order.
-/
theorem C5_sort (l : List GPUInput) :
    (sortedInputs l).Pairwise (fun a b => b.type.components ≤ a.type.components) ∧
    ∀ t : eGPUType,
      (sortedInputs l).filter (fun i => decide (i.type = t)) =
        l.filter (fun i => decide (i.type = t)) := by
  refine ⟨sortedInputs_sorted l, fun t => ?_⟩
  refine sortedInputs_filter l _ (fun a b ha hb => ?_)
  simp only [decide_eq_true_eq] at ha hb
  rw [inputLE_iff, ha, hb]

/--
C3, as stated, fails on the code: for one Vec3 and zero Floats (M = 0 <
1 = N) the claim requires the remaining N − M = 1 Vec3 to be padded to an
effective width of 4, but `get_padded_gpu_type` of a trailing Vec3 (one
with no successor) keeps width 3, so the padded widths are `[3]`, not
`[4]`.
-/
theorem C3_counterexample : ¬ C3_claim [⟨eGPUType.GPU_VEC3, [1, 2, 3]⟩] := by decide

/--
C3 (amended): for an input set of N Vec3 entries and M Float entries with
M < N, the packed order keeps the Vec3s in sorted order; exactly the first
M Vec3s (in sorted order) have a Float placed immediately after them, the
j-th such Vec3 consuming the j-th Float — so each Float is consumed by
exactly one Vec3; the remaining N − M Vec3s are padded to an effective
width of 4, except the final trailing Vec3, which keeps effective width 3
(the final round-up of the buffer size to a multiple of 16 bytes supplies
its padding space).
-/
theorem C3_migration (l : List GPUInput)
    (hall : ∀ x ∈ l, x.type = eGPUType.GPU_VEC3 ∨ x.type = eGPUType.GPU_FLOAT)
    (hMN : (l.filter isF).length < (l.filter isV3).length) :
    C3_conclusion l := by
  have hvmem : ∀ x ∈ l.filter isV3, x.type = eGPUType.GPU_VEC3 := by
    intro x hx
    have := List.of_mem_filter hx
    simpa [isV3] using this
  have hfmem : ∀ x ∈ l.filter isF, x.type = eGPUType.GPU_FLOAT := by
    intro x hx
    have := List.of_mem_filter hx
    simpa [isF] using this
  have hN : l.filter isV3 ≠ [] := by
    intro h
    rw [h] at hMN
    simp at hMN
  have hsort := inputs_sort_v3f l hall hN
  have hsfil : (sortedInputs l).filter isV3 = l.filter isV3 := by
    refine sortedInputs_filter l _ (fun a b ha hb => ?_)
    simp only [isV3, decide_eq_true_eq] at ha hb
    rw [inputLE_iff, ha, hb]
  have htakelen : ((l.filter isV3).take (l.filter isF).length).length
      = (l.filter isF).length := by
    rw [List.length_take]
    omega
  refine ⟨?_, ?_, ?_, ?_⟩
  · rw [hsort, interleave_filter_v3 _ _ hvmem hfmem, hsfil]
  · rw [hsort, vec3FloatPairs_interleave _ _ hvmem hfmem hMN, hsfil]
    exact List.map_fst_zip _ _ (le_of_eq htakelen)
  · rw [hsort, vec3FloatPairs_interleave _ _ hvmem hfmem hMN]
    exact List.map_snd_zip _ _ (le_of_eq htakelen.symm)
  · rw [hsort, paddedWidths_interleave _ _ hvmem hfmem hMN]

/-- Witness for C3 (amended) at N = 2 Vec3s and M = 1 Float. -/
theorem C3_migration_witness :
    C3_conclusion
      [⟨eGPUType.GPU_VEC3, [1, 2, 3]⟩, ⟨eGPUType.GPU_FLOAT, [7]⟩,
        ⟨eGPUType.GPU_VEC3, [4, 5, 6]⟩] :=
  C3_migration
    [⟨eGPUType.GPU_VEC3, [1, 2, 3]⟩, ⟨eGPUType.GPU_FLOAT, [7]⟩, ⟨eGPUType.GPU_VEC3, [4, 5, 6]⟩]
    (by decide) (by decide)

/--
C4, as stated, fails on the code: for two Vec3 entries the claim requires
both to be padded to an effective width of 4 components, but the trailing
Vec3 (no successor) keeps effective width 3: the padded widths are
`[4, 3]`, not `[4, 4]`.
-/
theorem C4_counterexample :
    ¬ C4_claim ⟨eGPUType.GPU_VEC3, [1, 2, 3]⟩ ⟨eGPUType.GPU_VEC3, [4, 5, 6]⟩ := by decide

/--
C4 (amended): for an input set of exactly two Vec3 entries and zero
Floats, the packed order is unchanged, the first Vec3 is padded to an
effective width of 4 components while the trailing Vec3 keeps effective
width 3, and the final round-up makes the block 32 bytes, so the two
entries sit at byte offsets 0 and 16 of a 32-byte block — 16 bytes of the
block apiece.
-/
theorem C4_two_vec3 (a b : GPUInput)
    (ha : a.type = eGPUType.GPU_VEC3) (hb : b.type = eGPUType.GPU_VEC3) :
    gpu_uniformbuffer_inputs_sort [a, b] = [a, b] ∧
    paddedWidths [a, b] = [4, 3] ∧
    bufferSizeBytes [a, b] = 32 ∧
    offsetAt [a, b] 0 = 0 ∧ offsetAt [a, b] 1 = 4 := by
  have hpw : paddedWidths [a, b] = [4, 3] := by
    rw [show paddedWidths [a, b]
        = (get_padded_gpu_type a (some b)).components
          :: (get_padded_gpu_type b none).components :: [] from rfl]
    rw [get_padded_gpu_type, if_pos ⟨ha, by simp [hb]⟩]
    rw [show get_padded_gpu_type b none = b.type from rfl, hb]
    rfl
  refine ⟨?_, hpw, ?_, rfl, ?_⟩
  · have hsort := inputs_sort_v3f [a, b]
      (by
        intro x hx
        simp at hx
        rcases hx with rfl | rfl
        · exact Or.inl ha
        · exact Or.inl hb)
      (by simp [isV3, ha])
    rw [hsort]
    rw [List.filter_cons_of_pos (by simp [isV3, ha]),
      List.filter_cons_of_pos (by simp [isV3, hb])]
    rw [List.filter_cons_of_neg (by simp [isF, ha]),
      List.filter_cons_of_neg (by simp [isF, hb])]
    rfl
  · rw [bufferSizeBytes, hpw]
    rfl
  · rw [offsetAt, hpw]
    rfl

/-- Witness for C4 (amended) at two concrete Vec3 inputs. -/
theorem C4_two_vec3_witness :
    gpu_uniformbuffer_inputs_sort
        [⟨eGPUType.GPU_VEC3, [1, 2, 3]⟩, ⟨eGPUType.GPU_VEC3, [4, 5, 6]⟩]
      = [⟨eGPUType.GPU_VEC3, [1, 2, 3]⟩, ⟨eGPUType.GPU_VEC3, [4, 5, 6]⟩] ∧
    paddedWidths [⟨eGPUType.GPU_VEC3, [1, 2, 3]⟩, ⟨eGPUType.GPU_VEC3, [4, 5, 6]⟩] = [4, 3] ∧
    bufferSizeBytes [⟨eGPUType.GPU_VEC3, [1, 2, 3]⟩, ⟨eGPUType.GPU_VEC3, [4, 5, 6]⟩] = 32 ∧
    offsetAt [⟨eGPUType.GPU_VEC3, [1, 2, 3]⟩, ⟨eGPUType.GPU_VEC3, [4, 5, 6]⟩] 0 = 0 ∧
    offsetAt [⟨eGPUType.GPU_VEC3, [1, 2, 3]⟩, ⟨eGPUType.GPU_VEC3, [4, 5, 6]⟩] 1 = 4 :=
  C4_two_vec3 ⟨eGPUType.GPU_VEC3, [1, 2, 3]⟩ ⟨eGPUType.GPU_VEC3, [4, 5, 6]⟩ rfl rfl

/-- An entry's component count never exceeds its padded width. -/
theorem comp_le_padded (x : GPUInput) (next : Option GPUInput) :
    x.type.components ≤ (get_padded_gpu_type x next).components := by
  cases next with
  | none => exact le_refl _
  | some n =>
    simp only [get_padded_gpu_type]
    split
    · next h => rw [h.1]; decide
    · exact le_refl _

/-- Unfolding of `paddedWidths` at a cons. -/
theorem paddedWidths_cons (x : GPUInput) (rest : List GPUInput) :
    paddedWidths (x :: rest)
      = (get_padded_gpu_type x rest.head?).components :: paddedWidths rest := rfl

/-- Offsets after the first entry accumulate that entry's padded width. -/
theorem offsetAt_cons_succ (x : GPUInput) (rest : List GPUInput) (j : Nat) :
    offsetAt (x :: rest) (j + 1)
      = (get_padded_gpu_type x rest.head?).components + offsetAt rest j := by
  rw [offsetAt, offsetAt, paddedWidths_cons, List.take_succ_cons, List.sum_cons]

/-- An in-bounds write preserves the buffer length. -/
theorem writeVals_length (buf : List (Option Int)) (ofs : Nat) (vals : List Int)
    (h : ofs + vals.length ≤ buf.length) :
    (writeVals buf ofs vals).length = buf.length := by
  simp only [writeVals, List.length_append, List.length_take, List.length_drop,
    List.length_map]
  omega

/-- A write at offset `ofs` leaves the cells below `ofs` unchanged. -/
theorem writeVals_take (buf : List (Option Int)) (ofs : Nat) (vals : List Int) (m : Nat)
    (hm : m ≤ ofs) (h : ofs ≤ buf.length) :
    (writeVals buf ofs vals).take m = buf.take m := by
  have hlen : (buf.take ofs).length = ofs := by rw [List.length_take]; omega
  rw [writeVals,
    List.take_append_of_le_length
      (show m ≤ (buf.take ofs ++ vals.map some).length by
        rw [List.length_append, hlen]; omega),
    List.take_append_of_le_length (show m ≤ (buf.take ofs).length by rw [hlen]; omega),
    List.take_take, min_eq_left hm]

/-- Reading back the cells just written yields the written values. -/
theorem writeVals_read (buf : List (Option Int)) (ofs : Nat) (vals : List Int)
    (h : ofs + vals.length ≤ buf.length) :
    ((writeVals buf ofs vals).drop ofs).take vals.length = vals.map some := by
  rw [writeVals]
  have hlen : (buf.take ofs).length = ofs := by rw [List.length_take]; omega
  rw [List.append_assoc, List.drop_left' hlen]
  exact List.take_left' (List.length_map vals some)

/-- The packing loop never touches cells below its starting offset. -/
theorem packLoop_take (s : List GPUInput) : ∀ (ofs m : Nat) (buf : List (Option Int)),
    m ≤ ofs → ofs + (paddedWidths s).sum ≤ buf.length →
    (packLoop s ofs buf).take m = buf.take m := by
  induction s with
  | nil => intro ofs m buf _ _; rfl
  | cons x rest ih =>
    intro ofs m buf hm hb
    rw [paddedWidths_cons, List.sum_cons] at hb
    have hcw : x.type.components ≤ (get_padded_gpu_type x rest.head?).components :=
      comp_le_padded x rest.head?
    have hvals : (x.vec.take x.type.components).length ≤ (get_padded_gpu_type x rest.head?).components := by
      rw [List.length_take]
      omega
    have hwl : (writeVals buf ofs (x.vec.take x.type.components)).length = buf.length :=
      writeVals_length _ _ _ (by omega)
    rw [show packLoop (x :: rest) ofs buf
        = packLoop rest (ofs + (get_padded_gpu_type x rest.head?).components)
            (writeVals buf ofs (x.vec.take x.type.components)) from rfl]
    rw [ih _ m _ (by omega) (by rw [hwl]; omega)]
    exact writeVals_take buf ofs _ m hm (by omega)

/-- The packing loop preserves the buffer length. -/
theorem packLoop_length (s : List GPUInput) : ∀ (ofs : Nat) (buf : List (Option Int)),
    ofs + (paddedWidths s).sum ≤ buf.length →
    (packLoop s ofs buf).length = buf.length := by
  induction s with
  | nil => intro ofs buf _; rfl
  | cons x rest ih =>
    intro ofs buf hb
    rw [paddedWidths_cons, List.sum_cons] at hb
    have hcw : x.type.components ≤ (get_padded_gpu_type x rest.head?).components :=
      comp_le_padded x rest.head?
    have hvals : (x.vec.take x.type.components).length ≤ (get_padded_gpu_type x rest.head?).components := by
      rw [List.length_take]
      omega
    have hwl : (writeVals buf ofs (x.vec.take x.type.components)).length = buf.length :=
      writeVals_length _ _ _ (by omega)
    rw [show packLoop (x :: rest) ofs buf
        = packLoop rest (ofs + (get_padded_gpu_type x rest.head?).components)
            (writeVals buf ofs (x.vec.take x.type.components)) from rfl]
    rw [ih _ _ (by rw [hwl]; omega), hwl]

/-- Round-trip of the packing loop: entry `j`'s component-count cells at
its accumulated offset hold exactly entry `j`'s values. -/
theorem packLoop_roundtrip (s : List GPUInput) : ∀ (ofs : Nat) (buf : List (Option Int)),
    (∀ i ∈ s, i.vec.length = i.type.components) →
    ofs + (paddedWidths s).sum ≤ buf.length →
    ∀ j (hj : j < s.length),
      ((packLoop s ofs buf).drop (ofs + offsetAt s j)).take ((s.get ⟨j, hj⟩).type.components)
        = (s.get ⟨j, hj⟩).vec.map some := by
  induction s with
  | nil => intro ofs buf _ _ j hj; exact absurd hj (by simp)
  | cons x rest ih =>
    intro ofs buf hwf hb j hj
    have hwx : x.vec.length = x.type.components := hwf x (by simp)
    have hvals : x.vec.take x.type.components = x.vec := by
      rw [← hwx]; exact List.take_length x.vec
    have hcw : x.type.components ≤ (get_padded_gpu_type x rest.head?).components :=
      comp_le_padded x rest.head?
    rw [paddedWidths_cons, List.sum_cons] at hb
    have hwl : (writeVals buf ofs (x.vec.take x.type.components)).length = buf.length := by
      refine writeVals_length _ _ _ ?_
      rw [hvals, hwx]
      omega
    rw [show packLoop (x :: rest) ofs buf
        = packLoop rest (ofs + (get_padded_gpu_type x rest.head?).components)
            (writeVals buf ofs (x.vec.take x.type.components)) from rfl]
    cases j with
    | zero =>
      rw [show offsetAt (x :: rest) 0 = 0 from rfl, Nat.add_zero]
      rw [show ((x :: rest).get ⟨0, hj⟩) = x from rfl]
      have h1 : (packLoop rest (ofs + (get_padded_gpu_type x rest.head?).components)
            (writeVals buf ofs (x.vec.take x.type.components))).take (ofs + x.type.components)
          = (writeVals buf ofs (x.vec.take x.type.components)).take (ofs + x.type.components) :=
        packLoop_take rest _ _ _ (by omega) (by rw [hwl]; omega)
      rw [List.take_drop, h1, ← List.take_drop]
      have := writeVals_read buf ofs (x.vec.take x.type.components)
        (by rw [hvals, hwx]; omega)
      rw [hvals] at this
      rw [hvals, ← hwx, this]
    | succ j =>
      have hj2 : j < rest.length := by simpa using hj
      rw [offsetAt_cons_succ, show ((x :: rest).get ⟨j + 1, hj⟩) = rest.get ⟨j, hj2⟩ from rfl]
      rw [show ofs + ((get_padded_gpu_type x rest.head?).components + offsetAt rest j)
          = (ofs + (get_padded_gpu_type x rest.head?).components) + offsetAt rest j by omega]
      exact ih _ _ (fun i hi => hwf i (by simp [hi])) (by rw [hwl]; omega) j hj2

/-- The rounded-up buffer holds at least the sum of the padded widths. -/
theorem sum_le_total (s : List GPUInput) :
    (paddedWidths s).sum ≤ bufferSizeBytes s / 4 := by
  rw [bufferSizeBytes, divide_ceil_u]
  have hd := Nat.div_add_mod ((paddedWidths s).sum * 4 + 15) 16
  have h2 : ((paddedWidths s).sum * 4 + 15) % 16 < 16 := Nat.mod_lt _ (by norm_num)
  rw [Nat.le_div_iff_mul_le (by norm_num : 0 < 4)]
  omega

/-- Extraction permutes the list. -/
theorem extractFirstFloat_perm (l : List GPUInput) : ∀ (f : GPUInput) (ys : List GPUInput),
    extractFirstFloat l = some (f, ys) → List.Perm l (f :: ys) := by
  induction l with
  | nil => intro f ys h; exact absurd h (by simp [extractFirstFloat])
  | cons x xs ih =>
    intro f ys h
    rw [extractFirstFloat] at h
    by_cases hx : x.type = eGPUType.GPU_FLOAT
    · rw [if_pos hx] at h
      obtain ⟨rfl, rfl⟩ : f = x ∧ ys = xs := by
        constructor <;> { injection h with h2; cases h2; rfl }
      exact List.Perm.refl _
    · rw [if_neg hx] at h
      cases he : extractFirstFloat xs with
      | none => rw [he] at h; exact absurd h (by simp)
      | some p =>
        obtain ⟨f2, ys2⟩ := p
        rw [he] at h
        have hfy : f = f2 ∧ ys = x :: ys2 := by
          refine ⟨?_, ?_⟩ <;> { injection h with h2; cases h2; rfl }
        obtain ⟨rfl, rfl⟩ := hfy
        exact ((ih f ys2 he).cons x).trans (List.Perm.swap f x ys2)

/-- The migration loop permutes the list. -/
theorem migrateLoopFuel_perm : ∀ (fuel : Nat) (l : List GPUInput),
    List.Perm (migrateLoopFuel fuel l) l := by
  intro fuel
  induction fuel with
  | zero => intro l; exact List.Perm.refl _
  | succ fuel ih =>
    intro l
    match l with
    | [] => exact List.Perm.refl _
    | v :: rest =>
      by_cases hv : v.type = eGPUType.GPU_VEC3
      · match rest with
        | [] => rw [migrateLoopFuel_last]
        | nxt :: rest2 =>
          by_cases hn : nxt.type = eGPUType.GPU_FLOAT
          · rw [migrateLoopFuel_break fuel v nxt rest2 hv hn]
          · rw [migrateLoopFuel_step fuel v nxt rest2 hv hn]
            match he : extractFirstFloat (nxt :: rest2) with
            | some (f, rest') =>
              have hp := extractFirstFloat_perm (nxt :: rest2) f rest' he
              exact (((ih rest').cons f).trans hp.symm).cons v
            | none => exact (ih (nxt :: rest2)).cons v
      · rw [migrateLoopFuel_nonv3 fuel v rest hv]

/-- Sorting-and-adjusting permutes the input list. -/
theorem inputs_sort_perm (l : List GPUInput) :
    List.Perm (gpu_uniformbuffer_inputs_sort l) l := by
  rw [gpu_uniformbuffer_inputs_sort]
  refine List.Perm.trans ?_ (sortedInputs_perm l)
  refine List.Perm.trans
    (List.Perm.append_left _ (migrateLoopFuel_perm _ _)) ?_
  rw [List.takeWhile_append_dropWhile]

/--
C1: round-trip of the packer.  For every non-empty list of supported typed
inputs, reading the byte block built by `GPU_uniformbuffer_dynamic_create`
(the `pack` of the list) back at entry `j`'s assigned offset — padded
effective widths accumulated in final sorted-and-adjusted order — for that
entry's componentCount floats reproduces the entry's original values
exactly; only the written cells are read, so padding is excluded from the
comparison.
-/
theorem C1_roundtrip (l : List GPUInput) (hne : l ≠ [])
    (hwf : ∀ i ∈ l, i.vec.length = i.type.components ∧ ¬ i.type = eGPUType.GPU_MAT3) :
    ∀ j (hj : j < (gpu_uniformbuffer_inputs_sort l).length),
      ((pack l).drop (offsetAt (gpu_uniformbuffer_inputs_sort l) j)).take
          (((gpu_uniformbuffer_inputs_sort l).get ⟨j, hj⟩).type.components)
        = ((gpu_uniformbuffer_inputs_sort l).get ⟨j, hj⟩).vec.map some := by
  intro j hj
  have hwf2 : ∀ i ∈ gpu_uniformbuffer_inputs_sort l, i.vec.length = i.type.components :=
    fun i hi => (hwf i ((inputs_sort_perm l).subset hi)).1
  have hlen : (List.replicate (bufferSizeBytes (gpu_uniformbuffer_inputs_sort l) / 4)
      (none : Option Int)).length
      = bufferSizeBytes (gpu_uniformbuffer_inputs_sort l) / 4 := List.length_replicate _ _
  have hbound : 0 + (paddedWidths (gpu_uniformbuffer_inputs_sort l)).sum
      ≤ (List.replicate (bufferSizeBytes (gpu_uniformbuffer_inputs_sort l) / 4)
        (none : Option Int)).length := by
    rw [hlen, Nat.zero_add]
    exact sum_le_total _
  have h := packLoop_roundtrip (gpu_uniformbuffer_inputs_sort l) 0
    (List.replicate (bufferSizeBytes (gpu_uniformbuffer_inputs_sort l) / 4) none)
    hwf2 hbound j hj
  rw [Nat.zero_add] at h
  exact h

/-- Witness for C1 at a concrete Vec3 + Float set, read back at entry 1. -/
theorem C1_roundtrip_witness :
    ((pack [⟨eGPUType.GPU_VEC3, [1, 2, 3]⟩, ⟨eGPUType.GPU_FLOAT, [9]⟩]).drop
        (offsetAt (gpu_uniformbuffer_inputs_sort
          [⟨eGPUType.GPU_VEC3, [1, 2, 3]⟩, ⟨eGPUType.GPU_FLOAT, [9]⟩]) 1)).take
        (((gpu_uniformbuffer_inputs_sort
          [⟨eGPUType.GPU_VEC3, [1, 2, 3]⟩, ⟨eGPUType.GPU_FLOAT, [9]⟩]).get
            ⟨1, by decide⟩).type.components)
      = ((gpu_uniformbuffer_inputs_sort
          [⟨eGPUType.GPU_VEC3, [1, 2, 3]⟩, ⟨eGPUType.GPU_FLOAT, [9]⟩]).get
            ⟨1, by decide⟩).vec.map some :=
  C1_roundtrip [⟨eGPUType.GPU_VEC3, [1, 2, 3]⟩, ⟨eGPUType.GPU_FLOAT, [9]⟩]
    (by decide) (by decide) 1 (by decide)

/--
C2: for an input set of exactly one Vec3 and one Float, in either input
order, the packed layout is the Vec3 immediately followed by the Float,
the pair consumes exactly 4 components (16 bytes), and no padding is
inserted: the packed block is precisely the Vec3's three values followed
by the Float's value.
-/
theorem C2_pair (a b : GPUInput) (l : List GPUInput)
    (ha : a.type = eGPUType.GPU_VEC3) (hb : b.type = eGPUType.GPU_FLOAT)
    (hwa : a.vec.length = 3) (hwb : b.vec.length = 1)
    (hl : l = [a, b] ∨ l = [b, a]) :
    gpu_uniformbuffer_inputs_sort l = [a, b] ∧
    paddedWidths [a, b] = [3, 1] ∧
    bufferSizeBytes [a, b] = 16 ∧
    pack l = a.vec.map some ++ b.vec.map some := by
  have hpw : paddedWidths [a, b] = [3, 1] := by
    rw [show paddedWidths [a, b]
        = (get_padded_gpu_type a (some b)).components
          :: (get_padded_gpu_type b none).components :: [] from rfl]
    rw [get_padded_gpu_type, if_neg (by simp [hb])]
    rw [show get_padded_gpu_type b none = b.type from rfl, ha, hb]
    rfl
  have hbytes : bufferSizeBytes [a, b] = 16 := by
    rw [bufferSizeBytes, hpw]
    rfl
  have hsort : gpu_uniformbuffer_inputs_sort l = [a, b] := by
    have hall : ∀ x ∈ l, x.type = eGPUType.GPU_VEC3 ∨ x.type = eGPUType.GPU_FLOAT := by
      intro x hx
      rcases hl with rfl | rfl <;> (simp at hx; rcases hx with rfl | rfl)
      · exact Or.inl ha
      · exact Or.inr hb
      · exact Or.inr hb
      · exact Or.inl ha
    have hfv : l.filter isV3 = [a] := by
      rcases hl with rfl | rfl <;>
        simp [isV3, List.filter_cons, ha, hb]
    have hff : l.filter isF = [b] := by
      rcases hl with rfl | rfl <;>
        simp [isF, List.filter_cons, ha, hb]
    rw [inputs_sort_v3f l hall (by rw [hfv]; simp), hfv, hff]
    rfl
  refine ⟨hsort, hpw, hbytes, ?_⟩
  have hveca : a.vec.take a.type.components = a.vec := by
    rw [ha, show eGPUType.GPU_VEC3.components = 3 from rfl, ← hwa]
    exact List.take_length a.vec
  have hvecb : b.vec.take b.type.components = b.vec := by
    rw [hb, show eGPUType.GPU_FLOAT.components = 1 from rfl, ← hwb]
    exact List.take_length b.vec
  rw [show pack l = packLoop (gpu_uniformbuffer_inputs_sort l) 0
      (List.replicate (bufferSizeBytes (gpu_uniformbuffer_inputs_sort l) / 4) none) from rfl]
  rw [hsort, hbytes]
  rw [show (16 : Nat) / 4 = 4 from rfl]
  rw [show packLoop [a, b] 0 (List.replicate 4 none)
      = packLoop [b] (0 + (get_padded_gpu_type a (some b)).components)
          (writeVals (List.replicate 4 none) 0 (a.vec.take a.type.components)) from rfl]
  have hga : (get_padded_gpu_type a (some b)).components = 3 := by
    rw [get_padded_gpu_type, if_neg (by simp [hb]), ha]; rfl
  have hgb : (get_padded_gpu_type b none).components = 1 := by
    rw [show get_padded_gpu_type b none = b.type from rfl, hb]; rfl
  rw [hveca, hga]
  have hbuf1 : writeVals (List.replicate 4 none) 0 a.vec = a.vec.map some ++ [none] := by
    rw [writeVals, List.take_zero, List.nil_append, Nat.zero_add, hwa]
    rw [List.drop_replicate]
    rfl
  rw [hbuf1]
  rw [show packLoop [b] (0 + 3) (a.vec.map some ++ [none])
      = packLoop [] ((0 + 3) + (get_padded_gpu_type b none).components)
          (writeVals (a.vec.map some ++ [none]) (0 + 3) (b.vec.take b.type.components)) from rfl]
  rw [hvecb]
  rw [show packLoop [] ((0 + 3) + (get_padded_gpu_type b none).components)
        (writeVals (a.vec.map some ++ [none]) (0 + 3) b.vec)
      = writeVals (a.vec.map some ++ [none]) (0 + 3) b.vec from rfl]
  have hlena : (a.vec.map some).length = 3 := by rw [List.length_map, hwa]
  rw [writeVals, Nat.zero_add, hwb]
  have htake : (a.vec.map some ++ [none]).take 3 = a.vec.map some :=
    List.take_left' hlena
  have hdrop : (a.vec.map some ++ [none]).drop (3 + 1) = [] := by
    refine List.drop_eq_nil_of_le ?_
    rw [List.length_append, hlena]
    simp
  rw [htake, hdrop, List.append_nil]

/-- Witness for C2 at concrete values, Float listed first. -/
theorem C2_pair_witness :
    gpu_uniformbuffer_inputs_sort [⟨eGPUType.GPU_FLOAT, [9]⟩, ⟨eGPUType.GPU_VEC3, [1, 2, 3]⟩]
      = [⟨eGPUType.GPU_VEC3, [1, 2, 3]⟩, ⟨eGPUType.GPU_FLOAT, [9]⟩] ∧
    paddedWidths [⟨eGPUType.GPU_VEC3, [1, 2, 3]⟩, ⟨eGPUType.GPU_FLOAT, [9]⟩] = [3, 1] ∧
    bufferSizeBytes [⟨eGPUType.GPU_VEC3, [1, 2, 3]⟩, ⟨eGPUType.GPU_FLOAT, [9]⟩] = 16 ∧
    pack [⟨eGPUType.GPU_FLOAT, [9]⟩, ⟨eGPUType.GPU_VEC3, [1, 2, 3]⟩]
      = ([1, 2, 3] : List Int).map some ++ ([9] : List Int).map some :=
  C2_pair ⟨eGPUType.GPU_VEC3, [1, 2, 3]⟩ ⟨eGPUType.GPU_FLOAT, [9]⟩
    [⟨eGPUType.GPU_FLOAT, [9]⟩, ⟨eGPUType.GPU_VEC3, [1, 2, 3]⟩]
    rfl rfl rfl rfl (Or.inr rfl)

/-- Upload counting distributes over trace concatenation. -/
theorem countUploads_append (s t : List GLCall) :
    countUploads (s ++ t) = countUploads s + countUploads t := by
  simp [countUploads, List.filter_append]

/-- Lazy init never touches the pending data or the size, and uploads
nothing. -/
theorem init_fields (env : GLEnv) (ubo : GPUUniformBuffer) :
    (gpu_uniformbuffer_init env ubo).1.data = ubo.data ∧
    (gpu_uniformbuffer_init env ubo).1.size = ubo.size ∧
    countUploads (gpu_uniformbuffer_init env ubo).2 = 0 := by
  rw [gpu_uniformbuffer_init]
  split <;> exact ⟨rfl, rfl, rfl⟩

/-- An update leaves `ubo->data` untouched and issues exactly one upload. -/
theorem update_fields (env : GLEnv) (ubo : GPUUniformBuffer) (d : List (Option Int)) :
    (GPU_uniformbuffer_update env ubo d).1.data = ubo.data ∧
    countUploads (GPU_uniformbuffer_update env ubo d).2 = 1 := by
  simp only [GPU_uniformbuffer_update]
  by_cases h : ubo.bindcode = 0
  · rw [if_pos h]
    refine ⟨(init_fields env ubo).1, ?_⟩
    rw [countUploads_append, (init_fields env ubo).2.2]
    rfl
  · rw [if_neg h]
    exact ⟨rfl, rfl⟩

/-- A bind with a valid slot on a buffer holding pending data uploads
exactly once and clears the pending data. -/
theorem bind_with_pending (env : GLEnv) (ubo : GPUUniformBuffer) (n : Int)
    (d : List (Option Int)) (hn : ¬ env.maxUboBinds ≤ n) (hd : ubo.data = some d) :
    (GPU_uniformbuffer_bind env ubo n).1.data = none ∧
    countUploads (GPU_uniformbuffer_bind env ubo n).2 = 1 := by
  simp only [GPU_uniformbuffer_bind, if_neg hn]
  by_cases h : ubo.bindcode = 0
  · rw [if_pos h]
    have h1 : (gpu_uniformbuffer_init env ubo).1.data = some d := by
      rw [(init_fields env ubo).1, hd]
    rw [h1]
    constructor
    · rfl
    · rw [countUploads_append, countUploads_append, (init_fields env ubo).2.2,
        (update_fields env (gpu_uniformbuffer_init env ubo).1 d).2]
      rfl
  · rw [if_neg h, hd]
    constructor
    · rfl
    · rw [countUploads_append, countUploads_append,
        (update_fields env ubo d).2]
      rfl

/-- A bind on a buffer without pending data uploads nothing. -/
theorem bind_without_pending (env : GLEnv) (ubo : GPUUniformBuffer) (n : Int)
    (hd : ubo.data = none) :
    (GPU_uniformbuffer_bind env ubo n).1.data = none ∧
    countUploads (GPU_uniformbuffer_bind env ubo n).2 = 0 := by
  rw [GPU_uniformbuffer_bind]
  by_cases hn : env.maxUboBinds ≤ n
  · rw [if_pos hn]
    exact ⟨hd, rfl⟩
  · simp only [if_neg hn]
    by_cases h : ubo.bindcode = 0
    · rw [if_pos h]
      have h1 : (gpu_uniformbuffer_init env ubo).1.data = none := by
        rw [(init_fields env ubo).1, hd]
      rw [h1]
      constructor
      · exact h1
      · rw [countUploads_append, countUploads_append, (init_fields env ubo).2.2]
        rfl
    · rw [if_neg h, hd]
      exact ⟨hd, rfl⟩

/-- A sequence of binds on a buffer without pending data uploads nothing. -/
theorem bindSeq_without_pending (env : GLEnv) (ns : List Int) :
    ∀ (ubo : GPUUniformBuffer), ubo.data = none →
    (bindSeq env ubo ns).1.data = none ∧ countUploads (bindSeq env ubo ns).2 = 0 := by
  induction ns with
  | nil => intro ubo hd; exact ⟨hd, rfl⟩
  | cons n ns ih =>
    intro ubo hd
    obtain ⟨h1, h2⟩ := bind_without_pending env ubo n hd
    obtain ⟨h3, h4⟩ := ih (GPU_uniformbuffer_bind env ubo n).1 h1
    rw [show bindSeq env ubo (n :: ns)
        = ((bindSeq env (GPU_uniformbuffer_bind env ubo n).1 ns).1,
            (GPU_uniformbuffer_bind env ubo n).2
              ++ (bindSeq env (GPU_uniformbuffer_bind env ubo n).1 ns).2) from rfl]
    refine ⟨h3, ?_⟩
    rw [countUploads_append, h2, h4]

/--
C6, as stated, fails on the code: with a platform maximum below the packed
size (here `maxUboSize = 0` against a 16-byte block), the inner
`GPU_uniformbuffer_create` returns NULL for a non-empty input list, and
`GPU_uniformbuffer_dynamic_create` then dereferences that null pointer at
`ubo->data = data` (modelled as returning `none`) — so a non-empty list
does not yield a buffer and "returns None exactly when empty" is false.
-/
theorem C6_counterexample : ¬ C6_claim ⟨0, 8, 1⟩ [⟨eGPUType.GPU_FLOAT, [0]⟩] := by decide

/--
C6 (amended): `GPU_uniformbuffer_dynamic_create` returns `none` for the
empty input list (no error is reported), and for every non-empty input
list whose packed size fits the platform maximum it returns a buffer in
deferred mode: the packed bytes are retained as the buffer's pending
`data`, no GL handle is allocated (`bindcode = 0`), and the construction
issues no GL call — in particular no upload.
-/
theorem C6_dynamic_create (env : GLEnv) (l : List GPUInput) (hasErrOut : Bool) (hne : l ≠ [])
    (hfit : bufferSizeBytes (gpu_uniformbuffer_inputs_sort l) ≤ env.maxUboSize) :
    GPU_uniformbuffer_dynamic_create env l hasErrOut
      = (some ⟨bufferSizeBytes (gpu_uniformbuffer_inputs_sort l), 0, -1, some (pack l)⟩,
          none, []) ∧
    GPU_uniformbuffer_dynamic_create env [] hasErrOut = (none, none, []) := by
  constructor
  · simp only [GPU_uniformbuffer_dynamic_create, if_neg hne]
    rw [GPU_uniformbuffer_create, if_neg (not_lt.mpr hfit)]
  · rfl

/-- Witness for C6 (amended) at a one-float input list. -/
theorem C6_dynamic_create_witness :
    GPU_uniformbuffer_dynamic_create ⟨1000, 8, 1⟩ [⟨eGPUType.GPU_FLOAT, [5]⟩] true
      = (some ⟨bufferSizeBytes (gpu_uniformbuffer_inputs_sort [⟨eGPUType.GPU_FLOAT, [5]⟩]),
            0, -1, some (pack [⟨eGPUType.GPU_FLOAT, [5]⟩])⟩,
          none, []) ∧
    GPU_uniformbuffer_dynamic_create ⟨1000, 8, 1⟩ [] true = (none, none, []) :=
  C6_dynamic_create ⟨1000, 8, 1⟩ [⟨eGPUType.GPU_FLOAT, [5]⟩] true (by decide) (by decide)

/--
C7: for every requested size greater than the platform maximum
uniform-buffer size, `GPU_uniformbuffer_create` returns no object and
issues no GL call; when the caller supplied a message buffer the fixed
non-empty message is written into it, and when none was supplied only the
null result is returned.  (The function is total: nothing is thrown past
the API boundary.)
-/
theorem C7_create_too_large (env : GLEnv) (size : Nat) (d : Option (List (Option Int)))
    (hasErrOut : Bool) (h : env.maxUboSize < size) :
    GPU_uniformbuffer_create env size d hasErrOut
      = (none, if hasErrOut then some "GPUUniformBuffer: UBO too big" else none, []) ∧
    ¬ ("GPUUniformBuffer: UBO too big" : String) = "" := by
  constructor
  · rw [GPU_uniformbuffer_create, if_pos h]
  · decide

/-- Witness for C7 with and without a caller-supplied message buffer. -/
theorem C7_create_too_large_witness :
    (GPU_uniformbuffer_create ⟨16, 8, 1⟩ 32 none true
      = (none, if true then some "GPUUniformBuffer: UBO too big" else none, []) ∧
    ¬ ("GPUUniformBuffer: UBO too big" : String) = "") ∧
    (GPU_uniformbuffer_create ⟨16, 8, 1⟩ 32 none false
      = (none, if false then some "GPUUniformBuffer: UBO too big" else none, []) ∧
    ¬ ("GPUUniformBuffer: UBO too big" : String) = "") :=
  ⟨C7_create_too_large ⟨16, 8, 1⟩ 32 none true (by decide),
    C7_create_too_large ⟨16, 8, 1⟩ 32 none false (by decide)⟩

/--
C8: for a buffer holding pending packed data (the state
`GPU_uniformbuffer_dynamic_create` leaves it in), any sequence of bind
calls with valid slot numbers performs exactly one upload: the first bind
uploads once and releases the owned copy, and every subsequent bind
uploads nothing.
-/
theorem C8_single_upload (env : GLEnv) (ubo : GPUUniformBuffer) (d : List (Option Int))
    (hd : ubo.data = some d) (n : Int) (ns : List Int)
    (hn : n < env.maxUboBinds) (hns : ∀ m ∈ ns, m < env.maxUboBinds) :
    countUploads (GPU_uniformbuffer_bind env ubo n).2 = 1 ∧
    (GPU_uniformbuffer_bind env ubo n).1.data = none ∧
    countUploads (bindSeq env (GPU_uniformbuffer_bind env ubo n).1 ns).2 = 0 ∧
    countUploads (bindSeq env ubo (n :: ns)).2 = 1 := by
  obtain ⟨h1, h2⟩ := bind_with_pending env ubo n d (not_le.mpr hn) hd
  obtain ⟨h3, h4⟩ := bindSeq_without_pending env ns _ h1
  refine ⟨h2, h1, h4, ?_⟩
  rw [show bindSeq env ubo (n :: ns)
      = ((bindSeq env (GPU_uniformbuffer_bind env ubo n).1 ns).1,
          (GPU_uniformbuffer_bind env ubo n).2
            ++ (bindSeq env (GPU_uniformbuffer_bind env ubo n).1 ns).2) from rfl]
  rw [countUploads_append, h2, h4]

/-- Witness for C8: three successive binds of a pending buffer. -/
theorem C8_single_upload_witness :
    countUploads (GPU_uniformbuffer_bind ⟨1000, 8, 7⟩
        ⟨16, 0, -1, some [some 1, some 2, some 3, some 4]⟩ 0).2 = 1 ∧
    (GPU_uniformbuffer_bind ⟨1000, 8, 7⟩
        ⟨16, 0, -1, some [some 1, some 2, some 3, some 4]⟩ 0).1.data = none ∧
    countUploads (bindSeq ⟨1000, 8, 7⟩
        (GPU_uniformbuffer_bind ⟨1000, 8, 7⟩
          ⟨16, 0, -1, some [some 1, some 2, some 3, some 4]⟩ 0).1 [0, 1]).2 = 0 ∧
    countUploads (bindSeq ⟨1000, 8, 7⟩
        ⟨16, 0, -1, some [some 1, some 2, some 3, some 4]⟩ [0, 0, 1]).2 = 1 :=
  C8_single_upload ⟨1000, 8, 7⟩ ⟨16, 0, -1, some [some 1, some 2, some 3, some 4]⟩
    [some 1, some 2, some 3, some 4] rfl 0 [0, 1] (by decide) (by decide)

/--
C9, as stated, fails on the code: `GPU_uniformbuffer_update` uploads (its
trace contains an upload call) yet leaves `ubo->data` untouched, so after
an update on a buffer holding pending data the pending block still
coexists with the uploaded state.
-/
theorem C9_counterexample :
    ¬ C9_claim ⟨1000, 8, 1⟩ ⟨16, 0, -1, some [some 0, some 0, some 0, some 0]⟩
      [some 5, some 5, some 5, some 5] := by decide

/--
C9 (amended): the owned pending block is present only between dynamic
construction and the first bind with a valid slot: such a bind always
leaves `data = none`, uploading exactly once if pending data was present
and not at all otherwise; a direct `GPU_uniformbuffer_update`, however,
uploads without clearing `ubo->data`.
-/
theorem C9_pending_invariant (env : GLEnv) (ubo : GPUUniformBuffer) (n : Int)
    (d : List (Option Int)) (hn : n < env.maxUboBinds) :
    ((GPU_uniformbuffer_update env ubo d).1.data = ubo.data ∧
      countUploads (GPU_uniformbuffer_update env ubo d).2 = 1) ∧
    (GPU_uniformbuffer_bind env ubo n).1.data = none ∧
    (∀ p, ubo.data = some p → countUploads (GPU_uniformbuffer_bind env ubo n).2 = 1) ∧
    (ubo.data = none → countUploads (GPU_uniformbuffer_bind env ubo n).2 = 0) := by
  refine ⟨update_fields env ubo d, ?_, ?_, ?_⟩
  · cases hc : ubo.data with
    | some p => exact (bind_with_pending env ubo n p (not_le.mpr hn) hc).1
    | none => exact (bind_without_pending env ubo n hc).1
  · intro p hp
    exact (bind_with_pending env ubo n p (not_le.mpr hn) hp).2
  · intro hnone
    exact (bind_without_pending env ubo n hnone).2

/-- Witness for C9 (amended) at a pending and a non-pending buffer. -/
theorem C9_pending_invariant_witness :
    (GPU_uniformbuffer_update ⟨1000, 8, 7⟩ ⟨16, 0, -1, some [some 1]⟩ [some 2]).1.data
        = (⟨16, 0, -1, some [some 1]⟩ : GPUUniformBuffer).data ∧
    countUploads (GPU_uniformbuffer_update ⟨1000, 8, 7⟩
        ⟨16, 0, -1, some [some 1]⟩ [some 2]).2 = 1 ∧
    (GPU_uniformbuffer_bind ⟨1000, 8, 7⟩ ⟨16, 0, -1, some [some 1]⟩ 0).1.data = none ∧
    countUploads (GPU_uniformbuffer_bind ⟨1000, 8, 7⟩ ⟨16, 0, -1, some [some 1]⟩ 0).2 = 1 ∧
    countUploads (GPU_uniformbuffer_bind ⟨1000, 8, 7⟩ ⟨16, 0, -1, none⟩ 0).2 = 0 :=
  ⟨(C9_pending_invariant ⟨1000, 8, 7⟩ ⟨16, 0, -1, some [some 1]⟩ 0 [some 2] (by decide)).1.1,
    (C9_pending_invariant ⟨1000, 8, 7⟩ ⟨16, 0, -1, some [some 1]⟩ 0 [some 2] (by decide)).1.2,
    (C9_pending_invariant ⟨1000, 8, 7⟩ ⟨16, 0, -1, some [some 1]⟩ 0 [some 2] (by decide)).2.1,
    (C9_pending_invariant ⟨1000, 8, 7⟩ ⟨16, 0, -1, some [some 1]⟩ 0 [some 2] (by decide)).2.2.1
      [some 1] rfl,
    (C9_pending_invariant ⟨1000, 8, 7⟩ ⟨16, 0, -1, none⟩ 0 [some 2] (by decide)).2.2.2 rfl⟩

/--
C10: for every buffer and every slot number at or above the platform's
bind-slot count, `GPU_uniformbuffer_bind` is a no-op apart from logging:
it issues no GL call (no allocation, upload or attach) and returns the
buffer with its entire state — bound point and pending data included —
unchanged.
-/
theorem C10_bind_out_of_range (env : GLEnv) (ubo : GPUUniformBuffer) (n : Int)
    (h : env.maxUboBinds ≤ n) :
    GPU_uniformbuffer_bind env ubo n = (ubo, []) := by
  rw [GPU_uniformbuffer_bind, if_pos h]

/-- Witness for C10 at a concrete buffer and the first out-of-range slot. -/
theorem C10_bind_out_of_range_witness :
    GPU_uniformbuffer_bind ⟨1000, 8, 7⟩ ⟨16, 0, -1, some [some 1]⟩ 8
      = (⟨16, 0, -1, some [some 1]⟩, []) :=
  C10_bind_out_of_range ⟨1000, 8, 7⟩ ⟨16, 0, -1, some [some 1]⟩ 8 (by decide)
